import Mathlib

/-!
Verification of the Document Ingestion & Semantic Retrieval pipeline of the
A-G-I_RFP repository.  The Python sources under `src/` are shallowly embedded:
strings become `List Char`, Python dictionaries become association lists with
Python's lookup/update semantics, fallible readers become `Option`-valued
environments, and the unguarded `while` loop of the chunker becomes a
fuel-indexed recursion (termination of the source loop is exactly the
existence of sufficient fuel).
-/

namespace RFP

/-! ## Python string primitives

`sliceIdx` normalises a (possibly negative) Python slice index against a
string of length `n`: negative indices count from the end and are clamped at
0, positive ones are clamped at `n`.  These are the semantics used by both
`str.rfind(sub, start, end)` and `text[start:end]` in CPython. -/

/-- Normalise a Python slice index against length `n`. -/
def sliceIdx (n : Nat) (i : Int) : Nat :=
  if i < 0 then ((n : Int) + i).toNat else min i.toNat n

/-- Python `text[a:b]` on a string modelled as a `List Char`. -/
def pySlice (s : List Char) (a b : Int) : List Char :=
  (s.take (sliceIdx s.length b)).drop (sliceIdx s.length a)

/-- Python `text.rfind(c, a, b)` for a single-character needle: the largest
absolute index `k` with `a' ≤ k < b'` (slice-normalised bounds) such that
`s[k] = c`, or `-1` if there is none. -/
def pyRfind (s : List Char) (c : Char) (a b : Int) : Int :=
  let lo := sliceIdx s.length a
  let hi := sliceIdx s.length b
  (List.range s.length).foldl
    (fun acc k => if lo ≤ k ∧ k < hi ∧ s.get? k = some c then (k : Int) else acc)
    (-1)

/-- Whitespace characters stripped by Python `str.strip()` (the ASCII ones;
the documents handled by the pipeline only produce spaces, tabs, newlines
and carriage returns). -/
def isPySpace (c : Char) : Bool :=
  c = ' ' || c = '\t' || c = '\n' || c = '\x0b' || c = '\x0c' || c = '\r'

/-- Python `text.strip()`: drop leading and trailing whitespace. -/
def pyStrip (s : List Char) : List Char :=
  ((s.dropWhile isPySpace).reverse.dropWhile isPySpace).reverse

/-- Python `s.replace(a, b)` for single characters (used on file stems as
`stem.replace(" ", "_")`). -/
def pyReplaceChar (s : List Char) (a b : Char) : List Char :=
  s.map (fun c => if c = a then b else c)

/-! ## The chunker

`DocumentProcessor.chunk_text` (src/src/data/document_processor.py, lines
119-162) and the textually identical `DocumentProcessorWithOCR.chunk_text`
(src/src/data/document_processor_ocr.py, lines 196-239).  The `while` loop
body is `chunkStep`; the loop itself is the fuel-indexed `chunkLoop`, so that
`chunkTextFuel fuel text S O = some r` states that the Python function
returns `r` within `fuel` iterations, and `= none` for every `fuel` states
that the loop never exits. -/

/-- One iteration of the chunker's `while` loop at position `start`: compute
the window end (with the sentence-boundary snap), and return the appended
chunk together with the next value of `start`. -/
def chunkStep (text : List Char) (S O : Nat) (start : Int) : List Char × Int :=
  let fin : Int := start + (S : Int)
  let e : Int :=
    if fin < (text.length : Int) then
      let lastPeriod := pyRfind text '.' start fin
      let lastNewline := pyRfind text '\n' start fin
      let breakPoint := max lastPeriod lastNewline
      if breakPoint > start then breakPoint + 1 else fin
    else fin
  (pyStrip (pySlice text start e), e - (O : Int))

/-- The chunker's `while start < len(text)` loop, indexed by fuel. -/
def chunkLoop (text : List Char) (S O : Nat) : Nat → Int → Option (List (List Char))
  | 0, _ => none
  | fuel + 1, start =>
    if start < (text.length : Int) then
      match chunkLoop text S O fuel (chunkStep text S O start).2 with
      | none => none
      | some rest => some ((chunkStep text S O start).1 :: rest)
    else
      some []

/-- `chunk_text(text, S, O)` run with the given iteration budget.  The early
return `if len(text) <= chunk_size: return [text]` needs no fuel. -/
def chunkTextFuel (fuel : Nat) (text : List Char) (S O : Nat) : Option (List (List Char)) :=
  if text.length ≤ S then some [text]
  else chunkLoop text S O fuel 0

/-- The chunker terminates on the given input and the source loop returns a
result. -/
def chunkTerminates (text : List Char) (S O : Nat) : Prop :=
  ∃ fuel r, chunkTextFuel fuel text S O = some r

/-! The non-terminating input for C1: `chunk_text("a.bbb", 3, 2)` has
`len(text) = 5 > 3 = S` and `O = 2 < 3 = S`, yet the loop never advances:
from `start = 0` the window is `[0, 3)`, the last period in the window is at
index 1, so `end` is snapped to 2 and `start` becomes `2 - 2 = 0` again. -/

/-- The input on which the chunker stalls despite `O < S`. -/
def stallText : List Char := ['a', '.', 'b', 'b', 'b']

theorem chunkStep_stallText_fixed : (chunkStep stallText 3 2 0).2 = 0 := by decide

theorem chunkLoop_stallText_none : ∀ fuel, chunkLoop stallText 3 2 fuel 0 = none := by
  intro fuel
  induction fuel with
  | zero => rfl
  | succ n ih =>
    simp only [chunkLoop]
    rw [chunkStep_stallText_fixed, ih]
    decide

theorem chunkTextFuel_stallText_none : ∀ fuel, chunkTextFuel fuel stallText 3 2 = none := by
  intro fuel
  simp only [chunkTextFuel]
  rw [if_neg (by decide)]
  exact chunkLoop_stallText_none fuel

/-- C1: the claim that `chunk_text(text, S, O)` terminates for every text with
`len(text) > S` and every overlap `0 ≤ O < S` is refuted by the code: on
`text = "a.bbb"`, `S = 3`, `O = 2` (so `len(text) = 5 > S` and `O < S`) the
loop's sentence-boundary snap sets `end = 2`, hence `start = end - O = 0`
forever, and the loop never exits — no iteration budget makes the call
return. -/
theorem chunk_text_stalls_despite_valid_overlap :
    stallText.length > 3 ∧ 2 < 3 ∧
    (∀ fuel, chunkTextFuel fuel stallText 3 2 = none) ∧
    ¬ chunkTerminates stallText 3 2 := by
  refine ⟨by decide, by decide, chunkTextFuel_stallText_none, ?_⟩
  rintro ⟨fuel, r, h⟩
  rw [chunkTextFuel_stallText_none fuel] at h
  exact Option.noConfusion h

/-- C2 counterexample: on the empty input text, `chunk_text` takes the
`len(text) <= chunk_size` early return and yields `[""]` — a one-element
sequence containing the empty string — not the empty sequence the claim
states (shown at the default configuration `S = 1000`, `O = 200`, and for
every iteration budget). -/
theorem chunk_text_empty_singleton_cex :
    (∀ fuel, chunkTextFuel fuel ([] : List Char) 1000 200 = some [[]]) ∧
    ([([] : List Char)] ≠ ([] : List (List Char))) :=
  ⟨fun _ => rfl, by decide⟩

/-- C2 amended: for the empty input text, `chunk_text` returns the
one-element sequence containing the empty string (the empty chunk sequence
arises only at the pipeline level, where `process_document` returns no
chunks when extraction yields no text). -/
theorem chunk_text_empty_returns_singleton :
    ∀ (S O fuel : Nat), chunkTextFuel fuel ([] : List Char) S O = some [[]] := by
  intro S O fuel
  simp [chunkTextFuel]

/-- Whitespace-padded short text used to separate `[t]` from `[t.strip()]`. -/
def padText : List Char := [' ', ' ', 'a', ' ', ' ']

/-- C3 counterexample: for `t = "  a  "` and `S = 1000 ≥ len(t)` the code
returns `[t]` itself, which differs from the claimed `[t.strip()]`. -/
theorem chunk_text_short_unstripped_cex :
    chunkTextFuel 0 padText 1000 200 = some [padText] ∧
    [padText] ≠ [pyStrip padText] :=
  ⟨rfl, by decide⟩

/-- C3 amended: for every text `t` with `len(t) ≤ S`, `chunk_text(t, S, O)`
returns exactly the one-element sequence `[t]` — the whole text untrimmed
(the `strip()` is applied only in the long-text loop). -/
theorem chunk_text_short_returns_whole (t : List Char) (S O fuel : Nat)
    (h : t.length ≤ S) : chunkTextFuel fuel t S O = some [t] := by
  simp [chunkTextFuel, h]

theorem chunk_text_short_returns_whole_witness :
    padText.length ≤ 1000 ∧ chunkTextFuel 0 padText 1000 200 = some [padText] :=
  ⟨by decide, chunk_text_short_returns_whole padText 1000 200 0 (by decide)⟩

/-! ## Text extraction

`DocumentProcessor.extract_text*` (src/src/data/document_processor.py, lines
23-117) and the OCR fallback decision of
`DocumentProcessorWithOCR.extract_text_from_pdf`
(src/src/data/document_processor_ocr.py, lines 37-70).  The external readers
(`PdfReader`, `docx.Document`, `open(...).read()`, `pdf2image`/`pytesseract`)
are modelled as `Option`-valued inputs: `none` means the call raised, and a
per-page `none` means that page's `extract_text()` raised. -/

/-- The page separator `f"\n\n--- Page {page_num} ---\n\n"` prepended to each
successfully extracted PDF page. -/
def pageMarker (n : Nat) : List Char :=
  ("\n\n--- Page " ++ toString n ++ " ---\n\n").toList

/-- The text accumulated by the per-page loop of `extract_text_from_pdf`:
pages are numbered from 1; a page whose `extract_text()` raises contributes
nothing (the exception is caught before any concatenation). -/
def pdfNativeText (pages : List (Option (List Char))) : List Char :=
  (pages.enum.map (fun pe =>
    match pe.2 with
    | some t => pageMarker (pe.1 + 1) ++ t
    | none => [])).flatten

/-- `DocumentProcessor.extract_text_from_pdf`: on a `PdfReader` failure the
exception is caught and the empty string returned; otherwise the per-page
accumulation. -/
def extractTextFromPdf (pdfRead : Option (List (Option (List Char)))) : List Char :=
  match pdfRead with
  | none => []
  | some pages => pdfNativeText pages

/-- `DocumentProcessor.extract_text_from_docx`: `"\n".join(paragraph texts)`,
or the empty string when reading the document raises. -/
def extractTextFromDocx (docxRead : Option (List (List Char))) : List Char :=
  match docxRead with
  | none => []
  | some paragraphs => List.intercalate ['\n'] paragraphs

/-- `DocumentProcessor.extract_text_from_txt`: the file's decoded content,
or the empty string when opening/decoding raises. -/
def extractTextFromTxt (txtRead : Option (List Char)) : List Char :=
  match txtRead with
  | none => []
  | some t => t

/-- Python `str.lower()` (ASCII, as applied to file extensions). -/
def pyLower (s : List Char) : List Char :=
  s.map Char.toLower

/-- The file-system environment seen by one `extract_text` call: the file's
extension and the outcome of each underlying reader. -/
structure FsEnv where
  ext : List Char
  pdfRead : Option (List (Option (List Char)))
  docxRead : Option (List (List Char))
  txtRead : Option (List Char)

/-- `DocumentProcessor.extract_text`: dispatch on the lower-cased extension;
unsupported extensions yield the empty string. -/
def extractText (env : FsEnv) : List Char :=
  if pyLower env.ext = ".pdf".toList then extractTextFromPdf env.pdfRead
  else if pyLower env.ext = ".docx".toList ∨ pyLower env.ext = ".doc".toList then
    extractTextFromDocx env.docxRead
  else if pyLower env.ext = ".txt".toList then extractTextFromTxt env.txtRead
  else []

/-- The environment represents an extraction failure for its declared kind:
the dispatched reader raised, or the kind is unsupported. -/
def extractFails (env : FsEnv) : Bool :=
  if pyLower env.ext = ".pdf".toList then env.pdfRead.isNone
  else if pyLower env.ext = ".docx".toList ∨ pyLower env.ext = ".doc".toList then
    env.docxRead.isNone
  else if pyLower env.ext = ".txt".toList then env.txtRead.isNone
  else true

/-- C9: `extract_text` never raises — it is a total function of the reader
outcomes — and on any extraction failure (the dispatched reader raising, or
an unsupported kind) it returns the empty string. -/
theorem extract_text_empty_on_failure (env : FsEnv)
    (h : extractFails env = true) : extractText env = [] := by
  unfold extractText extractFails at *
  split_ifs at h ⊢
  · rw [Option.isNone_iff_eq_none.mp h]; rfl
  · rw [Option.isNone_iff_eq_none.mp h]; rfl
  · rw [Option.isNone_iff_eq_none.mp h]; rfl
  · rfl

/-- An unsupported-kind file whose readers all succeed. -/
def unsupportedEnv : FsEnv :=
  ⟨".xyz".toList, some [some ['a']], some [['a']], some ['a']⟩

theorem extract_text_empty_on_failure_witness :
    extractFails unsupportedEnv = true ∧ extractText unsupportedEnv = [] :=
  ⟨by decide, extract_text_empty_on_failure unsupportedEnv (by decide)⟩

/-! ## OCR fallback decision

`DocumentProcessorWithOCR.extract_text_from_pdf(file_path, force_ocr)`:
native extraction is attempted unless `force_ocr`, and OCR is invoked when
`force_ocr or (self.use_ocr and len(text.strip()) < self.ocr_threshold)`.
The OCR engine's output (including `""` on its own failure) is the
`ocrText` input. -/

/-- The OCR-capable PDF extractor, returning the produced text together with
whether the OCR path was invoked. -/
def extractTextFromPdfOcr (useOcr : Bool) (thr : Nat) (forceOcr : Bool)
    (pdfRead : Option (List (Option (List Char)))) (ocrText : List Char) :
    List Char × Bool :=
  let text := if forceOcr then [] else extractTextFromPdf pdfRead
  let invoke := forceOcr || (useOcr && decide ((pyStrip text).length < thr))
  (if invoke then ocrText else text, invoke)

/-- A one-page PDF whose native extraction yields exactly 100 characters
(the 18-character page marker plus 82 body characters), of which the two
leading newlines are stripped before the threshold comparison. -/
def borderlinePages : List (Option (List Char)) :=
  [some (List.replicate 82 'x')]

/-- C4 counterexample: with the default configuration (`use_ocr = True`,
`ocr_threshold = 100`) and `force_ocr` absent, a PDF whose native extraction
yields exactly 100 characters — at the threshold, so by the claim OCR must
not be invoked — still triggers OCR, because the code compares
`len(text.strip()) = 98 < 100`, not `len(text)`. -/
theorem ocr_trigger_at_threshold_cex :
    (extractTextFromPdf (some borderlinePages)).length = 100 ∧
    ¬ (extractTextFromPdf (some borderlinePages)).length < 100 ∧
    (extractTextFromPdfOcr true 100 false (some borderlinePages) []).2 = true := by
  refine ⟨by decide, by decide, by decide⟩

/-- C4 amended: with `use_ocr = True` and `force_ocr` absent, the extractor
invokes OCR exactly when the whitespace-stripped native extraction text has
fewer than `ocr_threshold` characters; when OCR is invoked the OCR text is
returned, otherwise the native text. -/
theorem ocr_trigger_iff_stripped_below_threshold :
    ∀ (thr : Nat) (pdfRead : Option (List (Option (List Char)))) (ocrText : List Char),
      ((extractTextFromPdfOcr true thr false pdfRead ocrText).2 = true
        ↔ (pyStrip (extractTextFromPdf pdfRead)).length < thr) ∧
      (extractTextFromPdfOcr true thr false pdfRead ocrText).1 =
        (if (pyStrip (extractTextFromPdf pdfRead)).length < thr then ocrText
         else extractTextFromPdf pdfRead) := by
  intro thr pdfRead ocrText
  constructor
  · simp [extractTextFromPdfOcr]
  · by_cases h : (pyStrip (extractTextFromPdf pdfRead)).length < thr <;>
      simp [extractTextFromPdfOcr, h]

/-! ## Python dictionaries

Metadata records are Python dicts with string keys holding either string or
integer values.  A dict is an association list without duplicate keys (every
dict the pipeline builds or receives originates from a Python dict, which
cannot hold a key twice); `dget` is `d[k]`/`d.get(k)` and `dinsert` is
`d[k] = v` (replace the value of an existing key, else add the key). -/

/-- A scalar metadata value: a string or an integer. -/
inductive PyVal where
  | s (v : List Char)
  | n (v : Nat)
deriving DecidableEq, Repr

/-- A Python dict with string keys, as an association list. -/
abbrev Dict := List (String × PyVal)

/-- Python `d.get(k)`. -/
def dget (d : Dict) (k : String) : Option PyVal :=
  (d.find? (fun p => p.1 == k)).map (·.2)

/-- Python `d[k] = v`: replace the value of an existing key, else add the
pair. -/
def dinsert (d : Dict) (k : String) (v : PyVal) : Dict :=
  match d with
  | [] => [(k, v)]
  | p :: t => if p.1 == k then (k, v) :: t else p :: dinsert t k v

/-- Python `d.update(e)` where `e` is given as its item list: insert each
pair in order. -/
def dupdate (d : Dict) (e : List (String × PyVal)) : Dict :=
  e.foldl (fun acc kv => dinsert acc kv.1 kv.2) d

theorem dget_dinsert_self (d : Dict) (k : String) (v : PyVal) :
    dget (dinsert d k v) k = some v := by
  induction d with
  | nil => simp [dinsert, dget, List.find?]
  | cons p t ih =>
    by_cases hp : p.1 == k
    · simp [dinsert, hp, dget, List.find?]
    · simp only [dinsert, hp, if_false, Bool.false_eq_true]
      simpa [dget, List.find?, hp] using ih

theorem dget_dinsert_ne (d : Dict) (k k' : String) (v : PyVal) (h : ¬ k' = k) :
    dget (dinsert d k v) k' = dget d k' := by
  have hkk' : (k == k') = false := beq_eq_false_iff_ne.mpr (Ne.symm h)
  induction d with
  | nil => simp [dinsert, dget, List.find?, hkk']
  | cons p t ih =>
    by_cases hp : p.1 == k
    · have hpk : p.1 = k := by simpa using hp
      simp [dinsert, hp, dget, List.find?, hpk, hkk']
    · simp only [dinsert, hp, if_false, Bool.false_eq_true]
      by_cases hpk' : p.1 == k'
      · simp [dget, List.find?, hpk']
      · simpa [dget, List.find?, hpk'] using ih

theorem dget_dupdate_notin (e : List (String × PyVal)) (d : Dict) (k : String)
    (h : ∀ kv ∈ e, kv.1 ≠ k) : dget (dupdate d e) k = dget d k := by
  induction e generalizing d with
  | nil => rfl
  | cons kv t ih =>
    have hkv : kv.1 ≠ k := h kv (List.mem_cons_self kv t)
    have ht : ∀ p ∈ t, p.1 ≠ k := fun p hp => h p (List.mem_cons_of_mem kv hp)
    calc dget (dupdate (dinsert d kv.1 kv.2) t) k
        = dget (dinsert d kv.1 kv.2) k := ih (dinsert d kv.1 kv.2) ht
      _ = dget d k := dget_dinsert_ne d kv.1 k kv.2 (fun he => hkv he.symm)

/-! ## Vector store

`VectorStore.add_documents` (src/src/vectordb/vector_store.py, lines
79-121).  The collection is the ordered list of persisted entries; embedding
vectors are opaque to every claim and are omitted from the entry. -/

/-- A persisted `(id, text, metadata)` entry of the collection. -/
structure Entry where
  id : List Char
  text : List Char
  meta : Dict
deriving DecidableEq, Repr

/-- The vector collection's state. -/
abbrev Store := List Entry

/-- `VectorStore.add_documents(chunks, metadatas, ids)`: empty `chunks`
returns 0 and leaves the collection unchanged; omitted `ids` are synthesized
from the current collection size; omitted `metadatas` become empty records;
the entries are appended and the number of chunks returned. -/
def addDocuments (store : Store) (chunks : List (List Char))
    (metadatas : Option (List Dict)) (ids : Option (List (List Char))) :
    Nat × Store :=
  if chunks.isEmpty then (0, store)
  else
    let theIds := ids.getD ((List.range chunks.length).map
      (fun i => "chunk_".toList ++ (toString (store.length + i)).toList))
    let theMetas := metadatas.getD (chunks.map (fun _ => []))
    (chunks.length,
      store ++ (List.zip theIds (List.zip chunks theMetas)).map
        (fun p => ⟨p.1, p.2.1, p.2.2⟩))

/-! ## Ingestion pipeline

`DocumentIngestionPipeline.ingest_file` and `ingest_directory`
(src/src/data/ingest_documents.py, lines 43-152).  `DocData` is the
dictionary returned by `DocumentProcessor.process_document` for the file:
its name, stem and extension come from the path, and `chunks` is
`chunk_text` applied to the extracted text (empty when no text was
extracted) — extraction and chunking are deterministic in the file, so
re-processing the same file yields the same `DocData`. -/

/-- The processed-document data `ingest_file` consumes. -/
structure DocData where
  fileName : List Char
  fileStem : List Char
  fileSuffix : List Char
  fileSize : Nat
  text : List Char
  chunks : List (List Char)
deriving DecidableEq, Repr

/-- The metadata dictionary built by `process_document` for a document with
extractable text (src/src/data/document_processor.py, lines 197-204). -/
def docProcMetadata (doc : DocData) : List (String × PyVal) :=
  [("file_name", .s doc.fileName), ("file_type", .s doc.fileSuffix),
   ("file_size", .n doc.fileSize), ("num_chunks", .n doc.chunks.length),
   ("text_length", .n doc.text.length)]

/-- The item list of `base_metadata.update({"source_file": ...,
"file_type": ..., **doc_data["metadata"]})` in `ingest_file`. -/
def ingestUpdateList (doc : DocData) : List (String × PyVal) :=
  [("source_file", .s doc.fileName), ("file_type", .s doc.fileSuffix)]
    ++ docProcMetadata doc

/-- The chunk identifiers `f"{file_id}_chunk_{i}"` where
`file_id = file_path.stem.replace(" ", "_")`. -/
def chunkIds (stem : List Char) (n : Nat) : List (List Char) :=
  (List.range n).map
    (fun i => pyReplaceChar stem ' ' '_' ++ "_chunk_".toList ++ (toString i).toList)

/-- What one `ingest_file` call produced: its return value, the collection
afterwards, whether `add_documents` was called, the identifier and metadata
lists passed to it, and the caller's metadata dict as the caller sees it
after the call (Python's `metadata or {}` aliases the caller's dict exactly
when it is non-`None` and non-empty, so only then does
`base_metadata.update(...)` mutate it). -/
structure IngestResult where
  count : Nat
  store : Store
  addCalled : Bool
  idsUsed : List (List Char)
  chunkMetas : List Dict
  callerMeta : Option Dict

/-- `DocumentIngestionPipeline.ingest_file`. -/
def ingestFile (store : Store) (doc : DocData) (metadata : Option Dict) :
    IngestResult :=
  if doc.chunks.isEmpty then
    ⟨0, store, false, [], [], metadata⟩
  else
    let base := dupdate (metadata.getD []) (ingestUpdateList doc)
    let metas := (List.range doc.chunks.length).map
      (fun i => dinsert base "chunk_index" (.n i))
    let ids := chunkIds doc.fileStem doc.chunks.length
    let r := addDocuments store doc.chunks (some metas) (some ids)
    ⟨r.1, r.2, true, ids, metas,
      match metadata with
      | none => none
      | some m => if m.isEmpty then some m else some base⟩

/-- `DocumentIngestionPipeline.ingest_directory`, abstracted over the files
found and the behavior of `ingest_file` on each: `run f = some c` when
`ingest_file` returns `c` on file `f`, and `run f = none` when it raises.
Returns the total chunk count and the failure list. -/
def ingestDirectory {α : Type} (files : List α) (run : α → Option Nat) :
    Nat × List α :=
  if files.isEmpty then (0, [])
  else
    files.foldl
      (fun acc f =>
        match run f with
        | some c => (acc.1 + c, acc.2)
        | none => (acc.1, acc.2 ++ [f]))
      (0, [])

/-- C5: re-ingesting the same processed document with the same chunking
configuration — the second call starting from the collection state and
caller metadata left by the first — passes the identical identifier sequence
to `add_documents`, and that sequence is the deterministic function
`"<file_stem with spaces replaced>_chunk_<i>"` of the source and chunk
index, independent of prior index state. -/
theorem ingest_file_ids_idempotent :
    ∀ (s0 : Store) (doc : DocData) (m : Option Dict),
      (ingestFile ((ingestFile s0 doc m).store) doc
          ((ingestFile s0 doc m).callerMeta)).idsUsed
        = (ingestFile s0 doc m).idsUsed ∧
      (ingestFile s0 doc m).idsUsed
        = (if doc.chunks.isEmpty then []
           else chunkIds doc.fileStem doc.chunks.length) := by
  intro s0 doc m
  by_cases h : doc.chunks.isEmpty <;> simp [ingestFile, h]

/-- A processed text document with one chunk. -/
def docA : DocData :=
  ⟨"f.txt".toList, "f".toList, ".txt".toList, 5, "abc".toList, ["abc".toList]⟩

/-- A caller metadata dict that collides with a pipeline-written key. -/
def callerMetaA : Dict :=
  [("file_name", .s "CALLER".toList), ("extra", .s "keep".toList)]

/-- C6 counterexample: `file_name` is outside the claimed reserved set
`{source_file, chunk_index}`, yet the caller's value under it does not
survive into the per-chunk metadata — `base_metadata.update` overwrites it
with the document's file name. -/
theorem ingest_file_meta_overwrites_cex :
    ("file_name" ≠ "source_file" ∧ "file_name" ≠ "chunk_index") ∧
    (ingestFile [] docA (some callerMetaA)).chunkMetas ≠ [] ∧
    dget ((ingestFile [] docA (some callerMetaA)).chunkMetas.headD []) "file_name"
      ≠ dget callerMetaA "file_name" := by
  decide

/-- The keys `ingest_file` itself writes into every chunk's metadata. -/
def pipelineMetaKeys : List String :=
  ["source_file", "file_type", "file_name", "file_size", "num_chunks",
   "text_length", "chunk_index"]

/-- C6 amended: caller-supplied metadata survives into every per-chunk
metadata record exactly outside the pipeline-written keys `source_file`,
`file_type`, `file_name`, `file_size`, `num_chunks`, `text_length` and
`chunk_index`: for every other key `k`, each record maps `k` to `m[k]`. -/
theorem ingest_file_preserves_unreserved_meta (s : Store) (doc : DocData)
    (m : Dict) (k : String) (hk : k ∉ pipelineMetaKeys) :
    ∀ cm ∈ (ingestFile s doc (some m)).chunkMetas, dget cm k = dget m k := by
  intro cm hcm
  by_cases h : doc.chunks.isEmpty
  · simp [ingestFile, h] at hcm
  · simp only [ingestFile, h, Bool.false_eq_true, if_false, Option.getD_some,
      List.mem_map, List.mem_range] at hcm
    obtain ⟨i, hi, rfl⟩ := hcm
    have hne : ¬ k = "chunk_index" := by
      intro he
      exact hk (by simp [pipelineMetaKeys, he])
    have hks : ∀ kv ∈ ingestUpdateList doc, kv.1 ≠ k := by
      intro kv hkv he
      apply hk
      simp only [ingestUpdateList, docProcMetadata, List.cons_append,
        List.nil_append, List.mem_cons, List.not_mem_nil, or_false] at hkv
      rcases hkv with h1 | h1 | h1 | h1 | h1 | h1 | h1 <;> subst h1 <;>
        simp [pipelineMetaKeys, ← he]
    rw [dget_dinsert_ne _ _ _ _ hne]
    exact dget_dupdate_notin _ _ _ hks

theorem ingest_file_preserves_unreserved_meta_witness :
    ("extra" ∉ pipelineMetaKeys) ∧
    dget ((ingestFile [] docA (some callerMetaA)).chunkMetas.headD []) "extra"
      = dget callerMetaA "extra" :=
  ⟨by decide,
   ingest_file_preserves_unreserved_meta [] docA callerMetaA "extra" (by decide)
     ((ingestFile [] docA (some callerMetaA)).chunkMetas.headD []) (by decide)⟩

/-- Unfolding of the per-file loop of `ingest_directory`: the accumulated
total is the sum of the successful counts and the failure list collects
exactly the raising files, in order. -/
theorem ingestDirectory_foldl {α : Type} (run : α → Option Nat) :
    ∀ (files : List α) (t : Nat) (acc : List α),
      files.foldl
        (fun acc f =>
          match run f with
          | some c => (acc.1 + c, acc.2)
          | none => (acc.1, acc.2 ++ [f]))
        (t, acc)
      = (t + (files.filterMap run).sum,
         acc ++ files.filter (fun f => (run f).isNone)) := by
  intro files
  induction files with
  | nil => intro t acc; simp
  | cons f fs ih =>
    intro t acc
    cases hf : run f with
    | some c => simp [List.filterMap_cons, hf, ih, Nat.add_assoc]
    | none => simp [List.filterMap_cons, hf, ih]

/-- C7: when exactly one of the matching files raises inside `ingest_file`,
`ingest_directory` does not propagate the exception (it is a total function
of the per-file outcomes), returns the sum of the chunk counts of the
successful files, and records exactly one entry in its failure list. -/
theorem ingest_directory_partial_failure {α : Type} (files : List α)
    (run : α → Option Nat)
    (h : (files.filter (fun f => (run f).isNone)).length = 1) :
    (ingestDirectory files run).1 = (files.filterMap run).sum ∧
    (ingestDirectory files run).2.length = 1 := by
  have hne : files.isEmpty = false := by
    cases files with
    | nil => simp at h
    | cons f fs => rfl
  simp [ingestDirectory, hne, ingestDirectory_foldl, h]

/-- The per-file outcomes of a three-file directory in which exactly the
middle file raises. -/
def runThree : Nat → Option Nat :=
  fun n => if n = 1 then none else some (n + 3)

theorem ingest_directory_partial_failure_witness :
    ([0, 1, 2].filter (fun f => (runThree f).isNone)).length = 1 ∧
    (ingestDirectory [0, 1, 2] runThree).1 = ([0, 1, 2].filterMap runThree).sum ∧
    (ingestDirectory [0, 1, 2] runThree).2.length = 1 :=
  ⟨by decide, ingest_directory_partial_failure [0, 1, 2] runThree (by decide)⟩

/-- C8: on a document whose processing yields zero chunks, `ingest_file`
returns 0, leaves the collection untouched, and never reaches the
`add_documents` call (and, being a total function of its inputs, does not
raise). -/
theorem ingest_file_zero_chunks_noop (s : Store) (doc : DocData)
    (m : Option Dict) (h : doc.chunks = []) :
    (ingestFile s doc m).count = 0 ∧ (ingestFile s doc m).store = s ∧
    (ingestFile s doc m).addCalled = false := by
  simp [ingestFile, h]

/-- A processed document with no extractable text and hence no chunks. -/
def docEmpty : DocData :=
  ⟨"e.txt".toList, "e".toList, ".txt".toList, 0, [], []⟩

theorem ingest_file_zero_chunks_noop_witness :
    docEmpty.chunks = [] ∧ (ingestFile [] docEmpty none).count = 0 ∧
    (ingestFile [] docEmpty none).store = [] ∧
    (ingestFile [] docEmpty none).addCalled = false :=
  ⟨rfl, (ingest_file_zero_chunks_noop [] docEmpty none rfl).1,
   (ingest_file_zero_chunks_noop [] docEmpty none rfl).2.1,
   (ingest_file_zero_chunks_noop [] docEmpty none rfl).2.2⟩

/-- C10 counterexample: a non-`None` but empty caller dict is falsy, so
`metadata or {}` substitutes a fresh dict and the caller's dict is not
mutated — after ingesting a one-chunk document it still lacks
`source_file`, contradicting the claim as stated. -/
theorem ingest_file_empty_meta_unmutated_cex :
    docA.chunks ≠ [] ∧
    (ingestFile [] docA (some ([] : Dict))).callerMeta = some [] ∧
    dget ([] : Dict) "source_file" = none := by
  decide

/-- C10 amended: for a non-empty caller metadata dict on a document with at
least one chunk, `ingest_file` mutates the caller's dict in place: after the
call it is the original dict updated with the pipeline-written keys
`source_file`, `file_type`, `file_name`, `file_size`, `num_chunks` and
`text_length`, any pre-existing values under those keys overwritten. -/
theorem ingest_file_mutates_caller_metadata (s : Store) (doc : DocData)
    (m : Dict) (hm : ¬ m.isEmpty) (hc : ¬ doc.chunks.isEmpty) :
    (ingestFile s doc (some m)).callerMeta
      = some (dupdate m (ingestUpdateList doc)) ∧
    dget (dupdate m (ingestUpdateList doc)) "source_file"
      = some (.s doc.fileName) ∧
    dget (dupdate m (ingestUpdateList doc)) "file_type"
      = some (.s doc.fileSuffix) ∧
    dget (dupdate m (ingestUpdateList doc)) "file_name"
      = some (.s doc.fileName) ∧
    dget (dupdate m (ingestUpdateList doc)) "file_size"
      = some (.n doc.fileSize) ∧
    dget (dupdate m (ingestUpdateList doc)) "num_chunks"
      = some (.n doc.chunks.length) ∧
    dget (dupdate m (ingestUpdateList doc)) "text_length"
      = some (.n doc.text.length) := by
  refine ⟨by simp [ingestFile, hc, hm], ?_, ?_, ?_, ?_, ?_, ?_⟩ <;>
    simp [dupdate, ingestUpdateList, docProcMetadata, List.foldl,
      dget_dinsert_ne, dget_dinsert_self]

theorem ingest_file_mutates_caller_metadata_witness :
    ¬ callerMetaA.isEmpty ∧ ¬ docA.chunks.isEmpty ∧
    (ingestFile [] docA (some callerMetaA)).callerMeta
      = some (dupdate callerMetaA (ingestUpdateList docA)) ∧
    dget (dupdate callerMetaA (ingestUpdateList docA)) "source_file"
      = some (.s docA.fileName) :=
  ⟨by decide, by decide,
   (ingest_file_mutates_caller_metadata [] docA callerMetaA (by decide) (by decide)).1,
   (ingest_file_mutates_caller_metadata [] docA callerMetaA (by decide) (by decide)).2.1⟩

end RFP
